import Mathlib

/-!
Shallow embedding of the graph-based agent-execution code of the
lang-sandbox repository (src/graph.ts, src/functional.ts,
src/devin-mcp-graph.ts and the complex-graph example), together with
theorems settling the specification claims about it.

JavaScript numbers are modelled as rationals (exact for every value the
claims exercise); fallible node bodies return Except; the external
language model is modelled as a script of responses consumed in order.
-/

deriving instance DecidableEq for Except

namespace LangSandbox

/-- A JSON-like argument value, as produced by the model for a tool call.
The zod schemas of the repository only distinguish numbers, strings,
and arrays of these at the points the claims touch. -/
inductive Jval where
  | num (q : ℚ)
  | str (s : String)
deriving DecidableEq, Repr

/-- Tool-call arguments: a JSON object, i.e. a list of key/value pairs. -/
abbrev Args := List (String × Jval)

/-- Object key lookup (first binding wins, as in a JS object literal). -/
def lookupArg : Args → String → Option Jval
  | [], _ => none
  | (k, v) :: rest, key => if k = key then some v else lookupArg rest key

/-- A tool call as attached to an ai message: `{id, name, args}`
(src/graph.ts line 83: `aiMessage.tool_calls`). -/
structure ToolCall where
  id : String
  name : String
  args : Args
deriving DecidableEq, Repr

/-- The message union of the transcript channel: roles system, human,
ai (optionally carrying pending tool calls) and tool (carrying the
originating call id). -/
inductive Message where
  | system (content : String)
  | human (content : String)
  | ai (content : String) (tool_calls : List ToolCall)
  | tool (content : String) (tool_call_id : String)
deriving DecidableEq, Repr

/-- `message._getType() === "ai"` (src/graph.ts lines 77, 96). -/
def Message.isAI : Message → Bool
  | .ai _ _ => true
  | _ => false

/-- `aiMessage.tool_calls ?? []`: the pending calls of an ai message,
empty for every other role (src/graph.ts lines 83, 100). -/
def Message.toolCalls : Message → List ToolCall
  | .ai _ tcs => tcs
  | _ => []

/-- The state of the tool-calling graphs: the single `messages` channel
of MessagesAnnotation (src/graph.ts line 110). -/
structure AgentState where
  messages : List Message
deriving DecidableEq, Repr

/-- One of the arithmetic tools of src/graph.ts lines 16-41: a name and
a body on two validated numbers (the zod schema of all three is
`{a: number, b: number}`). -/
structure ToolDef where
  name : String
  run : ℚ → ℚ → ℚ

/-- `const add = tool(({a, b}) => a + b, ...)` (src/graph.ts line 16). -/
def add : ToolDef := ⟨"add", fun a b => a + b⟩

/-- `const multiply = tool(({a, b}) => a * b, ...)` (src/graph.ts line 25). -/
def multiply : ToolDef := ⟨"multiply", fun a b => a * b⟩

/-- `const divide = tool(({a, b}) => a / b, ...)` (src/graph.ts line 34). -/
def divide : ToolDef := ⟨"divide", fun a b => a / b⟩

/-- The tool registry `toolsByName` (src/graph.ts lines 44-48); lookup of
an unknown name yields `undefined`, modelled as `none`. -/
def toolsByName (n : String) : Option ToolDef :=
  if n = add.name then some add
  else if n = multiply.name then some multiply
  else if n = divide.name then some divide
  else none

/-- Validation of arguments against the shared zod schema
`z.object({a: z.number(), b: z.number()})`: both keys must be present
and numeric. -/
def numArgs (args : Args) : Option (ℚ × ℚ) :=
  match lookupArg args "a", lookupArg args "b" with
  | some (.num a), some (.num b) => some (a, b)
  | _, _ => none

/-- The ways a tool invocation or the tool node can fail:
a ToolInputParsingException from schema validation, or the TypeError
raised when `toolsByName[name]` is `undefined` and `.invoke` is read
from it. -/
inductive ToolError where
  | validation (toolName : String)
  | unregistered (toolName : String)
deriving DecidableEq, Repr

/-- `String(n)` on a JS number, for the values the claims exercise
(integers render without a fractional part). -/
def jsNumToString (q : ℚ) : String :=
  if q.den = 1 then toString q.num else toString q

/-- `tool.invoke(toolCall)`: validates the arguments against the
tool's schema; on success runs the body and wraps the result in a
tool-role message tagged with the originating call id; on schema
failure it throws (no catch exists at any call site in the sources). -/
def ToolDef.invoke (t : ToolDef) (tc : ToolCall) : Except ToolError Message :=
  match numArgs tc.args with
  | some (a, b) => .ok (.tool (jsNumToString (t.run a b)) tc.id)
  | none => .error (.validation t.name)

/-- The body of the `for (const toolCall of aiMessage.tool_calls ?? [])`
loop of src/graph.ts lines 83-87: look each call up in the registry and
invoke it, collecting one tool message per call; the first failure
aborts the node. -/
def runToolCalls : List ToolCall → Except ToolError (List Message)
  | [] => .ok []
  | tc :: rest =>
    match toolsByName tc.name with
    | none => .error (.unregistered tc.name)
    | some t =>
      match t.invoke tc with
      | .error e => .error e
      | .ok msg =>
        match runToolCalls rest with
        | .error e => .error e
        | .ok more => .ok (msg :: more)

/-- `toolNode` (src/graph.ts lines 74-90): if the transcript is empty or
its last message is not ai-role, return the empty update; otherwise run
every pending tool call of that message. -/
def toolNode (state : AgentState) : Except ToolError (List Message) :=
  match state.messages.getLast? with
  | none => .ok []
  | some lastMessage =>
    if lastMessage.isAI then runToolCalls lastMessage.toolCalls
    else .ok []

/-- The label set of the conditional edge out of llmCall:
`"toolNode"` or the END pseudo-node (src/graph.ts line 114). -/
inductive Route where
  | toolNode
  | END
deriving DecidableEq, Repr

/-- `shouldContinue` (src/graph.ts lines 94-106): END when the last
message is missing or not ai-role; toolNode when the ai message has a
truthy (non-zero-length) tool_calls list; END otherwise. -/
def shouldContinue (state : AgentState) : Route :=
  match state.messages.getLast? with
  | none => .END
  | some lastMessage =>
    if lastMessage.isAI then
      if lastMessage.toolCalls.length ≠ 0 then .toolNode else .END
    else .END

/-- The nodes of the src/graph.ts agent graph, with the START and END
pseudo-nodes. -/
inductive GNode where
  | START
  | llmCall
  | toolNode
  | END
deriving DecidableEq, Repr

/-- The static edges declared in src/graph.ts lines 113 and 115:
`.addEdge(START, "llmCall")` and `.addEdge("toolNode", "llmCall")`. -/
def agentStaticEdges : List (GNode × GNode) :=
  [(.START, .llmCall), (.toolNode, .llmCall)]

/-- The declared candidate labels of the conditional edge out of
llmCall: `["toolNode", END]` (src/graph.ts line 114). -/
def shouldContinueTargets : List Route := [.toolNode, .END]

/-- The spec's routing condition, written from the spec's words for
comparison with `shouldContinue`: the latest message is ai-role and
carries one or more pending tool calls. -/
def lastAiWithPendingCalls (s : AgentState) : Bool :=
  match s.messages.getLast? with
  | some (.ai _ tcs) => !tcs.isEmpty
  | _ => false

/-- Outcome of one invocation of a tool-calling agent against a model
script: `done` carries the final transcript and the number of completed
ToolExec/ModelCall cycles; `failed` carries the error thrown by a node
and the transcript at that point; `scriptExhausted` marks a run that
asked the model for more responses than the script provides. -/
inductive RunResult where
  | done (msgs : List Message) (cycles : ℕ)
  | failed (e : ToolError) (msgs : List Message)
  | scriptExhausted (msgs : List Message)
deriving DecidableEq, Repr

/-- The transcript carried by a run outcome. -/
def RunResult.msgs : RunResult → List Message
  | .done m _ => m
  | .failed _ m => m
  | .scriptExhausted m => m

/-- Count one more completed ToolExec/ModelCall cycle on a finished
run; failures pass through unchanged. -/
def bumpCycles : RunResult → RunResult
  | .done m c => .done m (c + 1)
  | other => other

/-- The walk of the compiled src/graph.ts agent: START goes to llmCall;
llmCall appends the model's next scripted response; the conditional
edge `shouldContinue` either ends the walk or runs `toolNode`, whose
results are appended (MessagesAnnotation merges updates by
concatenation) before the static edge returns to llmCall. -/
def runAgent : List Message → List Message → RunResult
  | [], msgs => .scriptExhausted msgs
  | response :: script, msgs =>
    let msgs1 := msgs ++ [response]
    match shouldContinue ⟨msgs1⟩ with
    | .END => .done msgs1 0
    | .toolNode =>
      match toolNode ⟨msgs1⟩ with
      | .error e => .failed e msgs1
      | .ok results => bumpCycles (runAgent script (msgs1 ++ results))

/-- The functional-API loop of src/functional.ts lines 88-110: call the
model; while the response carries tool calls, run every call
(`Promise.all` over `callTool`, which has no catch), extend `messages`
with the response and the results via `addMessages`, and call the model
again; when a response has no tool calls, break and return `messages` —
note the final plain response is not added to `messages` before the
break. -/
def runFunctional : List Message → List Message → RunResult
  | [], msgs => .scriptExhausted msgs
  | response :: script, msgs =>
    if response.toolCalls.isEmpty then .done msgs 0
    else
      match runToolCalls response.toolCalls with
      | .error e => .failed e msgs
      | .ok results => bumpCycles (runFunctional script (msgs ++ response :: results))

/-!
The complex-graph example (complex-graph-auto-trace.ts, provided as
src/unnamed/part_000): state channels, the parallel enrichment node and
the category router. Channels the routing and enrichment code never
reads keep their declared shape but play no role in the theorems.
`Math.random() > 0.5` in the sentiment sub-task is modelled by an
explicit boolean parameter `coin`.
-/

/-- The partial enrichment object: each of the three parallel sub-tasks
returns an object with exactly one of these keys set, and
`Object.assign` combines them (part_000 lines 428-446). -/
structure EObj where
  sentiment : Option String := none
  complexity : Option String := none
  tags : Option (List String) := none
deriving DecidableEq, Repr

/-- Right-biased field combination: the source object's key wins when
present, as with `Object.assign(target, source)`. -/
def owrite {α : Type} : Option α → Option α → Option α
  | some v, _ => some v
  | none, b => b

/-- `Object.assign(base, src)` on enrichment objects. -/
def EObj.assign (base src : EObj) : EObj :=
  ⟨owrite src.sentiment base.sentiment,
   owrite src.complexity base.complexity,
   owrite src.tags base.tags⟩

/-- `Object.assign({}, ...enrichments)` (part_000 line 446): fold the
sub-task results left to right — i.e. in declaration order, since
`Promise.all` resolves to results in declaration order regardless of
completion timing. -/
def assignAll (objs : List EObj) : EObj :=
  objs.foldl EObj.assign {}

/-- The GraphState of part_000 lines 180-194; `category` is declared as
a string union in TypeScript but holds whatever string the classifier
produced at run time, so it is modelled as String. -/
structure CState where
  input : String := ""
  category : String := ""
  confidence : ℚ := 0
  processed : Bool := false
  path : String := ""
  response : String := ""
  enrichments : EObj := {}
  summary : String := ""
  timestamp : String := ""
deriving DecidableEq, Repr

/-- Parallel sub-task 1 (part_000 lines 430-433): sentiment, decided by
`Math.random() > 0.5`, modelled by `coin`. -/
def sentimentTask (coin : Bool) : EObj :=
  { sentiment := some (if coin then "positive" else "neutral") }

/-- Parallel sub-task 2 (part_000 lines 435-438): complexity from the
input length. -/
def complexityTask (state : CState) : EObj :=
  { complexity := some (if state.input.length > 20 then "high" else "low") }

/-- Parallel sub-task 3 (part_000 lines 440-443): the tag list. -/
def tagsTask (state : CState) : EObj :=
  { tags := some ["processed", state.category, "v1"] }

/-- `enrichDataNode` (part_000 lines 424-453): dispatch the three
sub-tasks, await all of them, and merge the results in declaration
order with `Object.assign`. The partial update it returns writes the
`enrichments` channel with the merged object. -/
def enrichDataNode (coin : Bool) (state : CState) : EObj :=
  assignAll [sentimentTask coin, complexityTask state, tagsTask state]

/-- `routeByCategory` (part_000 lines 489-502): a switch on the
category string, defaulting to the enrichment path. -/
def routeByCategory (state : CState) : String :=
  match state.category with
  | "math" => "processMath"
  | "text" => "processText"
  | "data" => "processData"
  | _ => "enrichData"

/-- The declared candidate array of the conditional edge out of
classifyInput (part_000 lines 515-520). -/
def routeByCategoryTargets : List String :=
  ["processMath", "processText", "processData", "enrichData"]

/-!
The DeepWiki analysis graph (src/devin-mcp-graph.ts): the channels its
two routing functions read, and those functions. Channels start
undefined and are only present once a node or the caller wrote them,
so string channels are modelled as Option String; JS truthiness of a
string is "present and non-empty".
-/

/-- Truthiness of a possibly-undefined JS string. -/
def jsTruthy : Option String → Bool
  | none => false
  | some s => s ≠ ""

/-- The channels of the devin-mcp-graph GraphState (lines 42-55) that
are strings; `wikiStructure` (type any) and `insights` are read by no
routing function and are omitted. -/
structure DState where
  repoName : Option String := none
  userQuestion : Option String := none
  wikiContents : Option String := none
  answer : Option String := none
  summary : Option String := none
  error : Option String := none
deriving DecidableEq, Repr

/-- `checkError` (devin-mcp-graph.ts lines 352-358): route to the end
label when the error channel is truthy. -/
def checkError (state : DState) : String :=
  if jsTruthy state.error then "end" else "continue"

/-- `shouldAnswerQuestion` (devin-mcp-graph.ts lines 360-370): skip on
error; answer only when the user question is truthy and non-blank. -/
def shouldAnswerQuestion (state : DState) : String :=
  if jsTruthy state.error then "skip"
  else
    match state.userQuestion with
    | some q => if q ≠ "" ∧ q.trim.length > 0 then "answer" else "skip"
    | none => "skip"

/-- The label set of the conditional edge out of fetchWikiStructure
(devin-mcp-graph.ts lines 383-386). -/
def checkErrorLabels : List String := ["continue", "end"]

/-- The label set of the conditional edge out of analyzeInsights
(devin-mcp-graph.ts lines 389-392). -/
def shouldAnswerQuestionLabels : List String := ["answer", "skip"]

/-!
The generic executor. The step loop itself lives in the langgraph
library, not in this repository; only its callers and graph builders
are in the sources, so it is modelled from the spec for the step-limit
claim.
-/

/-- Outcome of an executor walk: the final state with the number of
node executions performed, or a StepLimitExceeded failure recording how
many node executions were observed before it. -/
inductive ExecOutcome (σ : Type) where
  | final (s : σ) (executed : ℕ)
  | stepLimitExceeded (executed : ℕ)
deriving DecidableEq, Repr

/-- Modelled from the spec: the Graph Executor's run loop (spec §4.1),
whose implementation is the langgraph library and absent from src/.
Each step executes the current node, merges its update (folded here
into the node function), resolves the next node (`none` standing for
END), and stops at END; a configurable maximum step count is enforced,
and exceeding it fails with StepLimitExceeded rather than hanging. -/
def execWalk {ν σ : Type} (node : ν → σ → σ) (next : ν → σ → Option ν) :
    ν → σ → ℕ → ℕ → ExecOutcome σ
  | _, _, executed, 0 => .stepLimitExceeded executed
  | cur, s, executed, r + 1 =>
    let s1 := node cur s
    match next cur s1 with
    | none => .final s1 (executed + 1)
    | some n => execWalk node next n s1 (executed + 1) r

/-- Modelled from the spec: `invoke(graph, initialState, runOptions)`
with a configured step bound (spec §4.1). -/
def invokeGraph {ν σ : Type} (node : ν → σ → σ) (next : ν → σ → Option ν)
    (entry : ν) (init : σ) (stepLimit : ℕ) : ExecOutcome σ :=
  execWalk node next entry init 0 stepLimit

/-!
The concrete scenario of the spec and the stubbed model scripts used
by the termination claims.
-/

/-- The initial human message of src/graph.ts line 121. -/
def humanM : Message := .human "Add 3 and 4."

/-- The pending call `add(a=3, b=4)` of the stubbed model. -/
def addCall : ToolCall := ⟨"call_1", "add", [("a", .num 3), ("b", .num 4)]⟩

/-- A model response carrying the single pending call `add(a=3, b=4)`. -/
def aiToolM : Message := .ai "" [addCall]

/-- The tool-role result of that call: content "7", tagged with the
originating call id. -/
def toolResM : Message := .tool "7" "call_1"

/-- The final plain model response with content "7" and no tool calls. -/
def finalAiM : Message := .ai "7" []

/-- A model script that produces the tool-call-bearing response exactly
k times and then the plain response. -/
def scriptK (k : ℕ) : List Message := List.replicate k aiToolM ++ [finalAiM]

/-- The two messages one ToolExec/ModelCall cycle adds to the
transcript. -/
def cycleBlock : List Message := [aiToolM, toolResM]

/-!
Supporting lemmas.
-/

lemma bumpCycles_msgs (x : RunResult) : (bumpCycles x).msgs = x.msgs := by
  cases x <;> rfl

lemma getLast?_concat_eq {α : Type} (l : List α) (a : α) :
    (l ++ [a]).getLast? = some a := by
  induction l with
  | nil => rfl
  | cons x xs ih =>
    rw [List.cons_append]
    cases h : xs ++ [a] with
    | nil => exact absurd h (by simp)
    | cons y ys => rw [List.getLast?_cons_cons, ← h, ih]

lemma shouldContinue_concat (msgs : List Message) (m : Message) :
    shouldContinue ⟨msgs ++ [m]⟩ = shouldContinue ⟨[m]⟩ := by
  unfold shouldContinue
  rw [getLast?_concat_eq]
  rfl

lemma toolNode_concat (msgs : List Message) (m : Message) :
    toolNode ⟨msgs ++ [m]⟩ = toolNode ⟨[m]⟩ := by
  unfold toolNode
  rw [getLast?_concat_eq]
  rfl

lemma add_three_four : add.run 3 4 = 7 := by
  show (3 : ℚ) + 4 = 7
  norm_num

lemma jsNumToString_seven : jsNumToString 7 = "7" := by
  unfold jsNumToString
  rw [if_pos (by norm_num)]
  rw [show (7 : ℚ).num = 7 by norm_num]
  decide

lemma runToolCalls_addCall : runToolCalls [addCall] = .ok [toolResM] := by
  show Except.ok [Message.tool (jsNumToString (add.run 3 4)) "call_1"] = _
  rw [add_three_four, jsNumToString_seven]
  rfl

lemma toolNode_aiToolM : toolNode ⟨[aiToolM]⟩ = .ok [toolResM] := by
  show runToolCalls [addCall] = _
  exact runToolCalls_addCall

lemma scriptK_succ (n : ℕ) : scriptK (n + 1) = aiToolM :: scriptK n := by
  simp [scriptK, List.replicate_succ]

lemma shouldContinue_aiToolM : shouldContinue ⟨[aiToolM]⟩ = .toolNode := by decide

lemma shouldContinue_finalAiM : shouldContinue ⟨[finalAiM]⟩ = .END := by decide

lemma runAgent_scriptK (k : ℕ) : ∀ msgs : List Message,
    runAgent (scriptK k) msgs
      = .done ((msgs ++ (List.replicate k cycleBlock).flatten) ++ [finalAiM]) k := by
  induction k with
  | zero =>
    intro msgs
    show runAgent [finalAiM] msgs = _
    simp only [runAgent]
    rw [shouldContinue_concat, shouldContinue_finalAiM]
    simp
  | succ n ih =>
    intro msgs
    rw [scriptK_succ]
    simp only [runAgent]
    rw [shouldContinue_concat, shouldContinue_aiToolM, toolNode_concat, toolNode_aiToolM]
    simp only []
    rw [ih ((msgs ++ [aiToolM]) ++ [toolResM])]
    simp [bumpCycles, cycleBlock, List.replicate_succ, List.append_assoc]

lemma runFunctional_scriptK (k : ℕ) : ∀ msgs : List Message,
    runFunctional (scriptK k) msgs
      = .done (msgs ++ (List.replicate k cycleBlock).flatten) k := by
  induction k with
  | zero =>
    intro msgs
    show runFunctional [finalAiM] msgs = _
    simp only [runFunctional]
    rw [if_pos (by decide)]
    simp
  | succ n ih =>
    intro msgs
    rw [scriptK_succ]
    simp only [runFunctional]
    rw [if_neg (by decide)]
    rw [show aiToolM.toolCalls = [addCall] from rfl, runToolCalls_addCall]
    simp only []
    rw [ih (msgs ++ aiToolM :: [toolResM])]
    simp [bumpCycles, cycleBlock, List.replicate_succ, List.append_assoc]

lemma join_replicate_cycleBlock_length (k : ℕ) :
    ((List.replicate k cycleBlock).flatten).length = 2 * k := by
  induction k with
  | zero => simp
  | succ n ih =>
    simp [List.replicate_succ, cycleBlock, ih]
    ring

lemma runAgent_extends (script : List Message) :
    ∀ msgs : List Message, ∃ t, (runAgent script msgs).msgs = msgs ++ t := by
  induction script with
  | nil => intro msgs; exact ⟨[], by simp [runAgent, RunResult.msgs]⟩
  | cons r rest ih =>
    intro msgs
    simp only [runAgent]
    split
    · exact ⟨[r], rfl⟩
    · split
      · exact ⟨[r], rfl⟩
      · rename_i results hres
        rcases ih ((msgs ++ [r]) ++ results) with ⟨t, ht⟩
        refine ⟨[r] ++ results ++ t, ?_⟩
        rw [bumpCycles_msgs, ht]
        simp

lemma runFunctional_extends (script : List Message) :
    ∀ msgs : List Message, ∃ t, (runFunctional script msgs).msgs = msgs ++ t := by
  induction script with
  | nil => intro msgs; exact ⟨[], by simp [runFunctional, RunResult.msgs]⟩
  | cons r rest ih =>
    intro msgs
    simp only [runFunctional]
    split
    · exact ⟨[], by simp [RunResult.msgs]⟩
    · split
      · exact ⟨[], by simp [RunResult.msgs]⟩
      · rename_i results hres
        rcases ih (msgs ++ r :: results) with ⟨t, ht⟩
        refine ⟨r :: results ++ t, ?_⟩
        rw [bumpCycles_msgs, ht]
        simp

lemma toolsByName_name (n : String) (t : ToolDef) (h : toolsByName n = some t) :
    t.name = n := by
  unfold toolsByName at h
  split at h
  · rename_i hc; injection h with h2; rw [← h2]; exact hc.symm
  · split at h
    · rename_i hc; injection h with h2; rw [← h2]; exact hc.symm
    · split at h
      · rename_i hc; injection h with h2; rw [← h2]; exact hc.symm
      · exact absurd h (by simp)

lemma runToolCalls_all_valid : ∀ tcs : List ToolCall,
    (∀ tc ∈ tcs, (toolsByName tc.name).isSome ∧ (numArgs tc.args).isSome) →
    ∃ rs, runToolCalls tcs = .ok rs ∧ rs.length = tcs.length := by
  intro tcs
  induction tcs with
  | nil => intro _; exact ⟨[], rfl, rfl⟩
  | cons tc rest ih =>
    intro h
    obtain ⟨hreg, hval⟩ := h tc (by simp)
    obtain ⟨t, ht⟩ := Option.isSome_iff_exists.mp hreg
    obtain ⟨⟨a, b⟩, hab⟩ := Option.isSome_iff_exists.mp hval
    obtain ⟨rs, hrs, hlen⟩ := ih (fun x hx => h x (by simp [hx]))
    refine ⟨(Message.tool (jsNumToString (t.run a b)) tc.id) :: rs, ?_, by simp [hlen]⟩
    unfold runToolCalls
    rw [ht]
    unfold ToolDef.invoke
    rw [hab, hrs]

lemma runToolCalls_invalid_head (tc : ToolCall) (rest : List ToolCall) (t : ToolDef)
    (hreg : toolsByName tc.name = some t) (hbad : numArgs tc.args = none) :
    runToolCalls (tc :: rest) = .error (.validation tc.name) := by
  unfold runToolCalls
  rw [hreg]
  unfold ToolDef.invoke
  rw [hbad]
  show Except.error (ToolError.validation t.name) = _
  rw [toolsByName_name tc.name t hreg]

/-!
Claim theorems.
-/

/-- Claim C1: after the model-call node, `shouldContinue` returns the
tool node exactly when the latest message is ai-role with a non-empty
tool_calls list, and END otherwise; and the only static edge leaving
toolNode targets llmCall. -/
theorem shouldContinue_routes_on_pending_calls :
    (∀ s : AgentState,
      shouldContinue s
        = (if lastAiWithPendingCalls s then Route.toolNode else Route.END)) ∧
    agentStaticEdges.filter (fun e => e.1 == GNode.toolNode)
      = [(GNode.toolNode, GNode.llmCall)] := by
  constructor
  · intro s
    unfold shouldContinue lastAiWithPendingCalls
    cases h : s.messages.getLast? with
    | none => rfl
    | some m =>
      cases m with
      | system c => rfl
      | human c => rfl
      | tool c i => rfl
      | ai c tcs => cases tcs <;> simp [Message.isAI, Message.toolCalls]
  · decide

/-- Claim C2 (amended): with a stubbed model that returns a single-call
ai message exactly k times and then a plain message, the graph agent of
src/graph.ts terminates after exactly k ToolExec/ModelCall cycles and
appends 2k + 1 messages beyond the initial human message (k tool-call
ai messages, k tool-result messages and one final ai message — the
claim's count of 1 + 2k + 1 double-counts the first ai message); the
functional agent of src/functional.ts also runs k cycles but returns a
transcript with only 2k appended messages, its final plain response
excluded. -/
theorem tool_loop_k_cycles (k : ℕ) :
    runAgent (scriptK k) [humanM]
      = .done (([humanM] ++ (List.replicate k cycleBlock).flatten) ++ [finalAiM]) k ∧
    ((List.replicate k cycleBlock).flatten ++ [finalAiM]).length = 2 * k + 1 ∧
    runFunctional (scriptK k) [humanM]
      = .done ([humanM] ++ (List.replicate k cycleBlock).flatten) k := by
  refine ⟨runAgent_scriptK k [humanM], ?_, runFunctional_scriptK k [humanM]⟩
  rw [List.length_append, join_replicate_cycleBlock_length]
  rfl

/-- Claim C2, counterexample: at k = 0 the graph agent appends exactly
one message beyond the initial human message, while the claim's count
1 + 2·0 + 1 is 2. -/
theorem tool_loop_k0_appends_one :
    runAgent (scriptK 0) [humanM] = .done [humanM, finalAiM] 0 ∧
    [humanM, finalAiM].length - 1 = 1 ∧ 1 + 2 * 0 + 1 = 2 ∧ (1 : ℕ) ≠ 2 := by
  refine ⟨?_, rfl, rfl, by decide⟩
  have h := runAgent_scriptK 0 [humanM]
  simpa using h

/-- Claim C3: from the initial human message "Add 3 and 4.", a stub
model answering first with one pending add(a=3, b=4) call and then with
plain "7" produces exactly the four-message transcript human,
ai(tool_call), tool("7") tagged with the originating call id, ai("7"),
after one ToolExec/ModelCall cycle, with one tool-role message appended
for the one pending call. -/
theorem concrete_add_scenario :
    runAgent [Message.ai "" [addCall], Message.ai "7" []] [Message.human "Add 3 and 4."]
      = .done [Message.human "Add 3 and 4.", Message.ai "" [addCall],
          Message.tool "7" addCall.id, Message.ai "7" []] 1 := by
  show runAgent (scriptK 1) [humanM] = _
  rw [runAgent_scriptK 1 [humanM]]
  rfl

/-- Claim C4, counterexample: the pending call add(a="three", b=4),
whose arguments fail the tool's schema, makes the tool-execution node
fail with a validation error instead of succeeding with an
error-describing tool message appended. -/
theorem toolNode_invalid_args_counterexample :
    toolNode ⟨[Message.human "Add three and 4.",
      Message.ai "" [⟨"call_bad", "add", [("a", Jval.str "three"), ("b", Jval.num 4)]⟩]]⟩
      = .error (.validation "add") := by decide

/-- Claim C4 (amended): for a pending tool call whose arguments fail
the tool's declared input schema, the tool body is never run — but
instead of appending an error tool message and succeeding, the
tool-execution node fails with the validation error (nothing catches
the exception), so the walk stops rather than proceeding to the next
model call. -/
theorem toolNode_invalid_args_fail (pre : List Message) (c : String) (tc : ToolCall)
    (rest : List ToolCall) (hreg : (toolsByName tc.name).isSome)
    (hbad : numArgs tc.args = none) :
    toolNode ⟨pre ++ [Message.ai c (tc :: rest)]⟩ = .error (.validation tc.name) := by
  rw [toolNode_concat]
  show runToolCalls (tc :: rest) = _
  obtain ⟨t, ht⟩ := Option.isSome_iff_exists.mp hreg
  exact runToolCalls_invalid_head tc rest t ht hbad

/-- Witness for the amended C4 theorem at a concrete ill-typed
multiply call. -/
theorem toolNode_invalid_args_fail_witness :
    toolNode ⟨[Message.ai "hi" [⟨"id1", "multiply", [("a", Jval.str "x")]⟩]]⟩
      = .error (.validation "multiply") :=
  toolNode_invalid_args_fail [] "hi" ⟨"id1", "multiply", [("a", Jval.str "x")]⟩ []
    (by decide) (by decide)

/-- Claim C5, counterexample: with one and the same input state, the
two outcomes of the sentiment sub-task's `Math.random()` draw produce
different merged enrichment objects, so the fan-out stage's combined
update is not a deterministic function of the input state alone. -/
theorem enrichDataNode_random_counterexample :
    enrichDataNode true { input := "Analyze this", category := "data" }
      ≠ enrichDataNode false { input := "Analyze this", category := "data" } := by decide

/-- Claim C5 (amended): the fan-out stage's merged update is a
deterministic function of the input state and the sentiment sub-task's
random draw; the three sub-task results are merged in declaration
order — Promise.all yields them in declaration order regardless of
completion timing — and when two merged objects write the same replace
field the later-declared one's value wins. -/
theorem enrichDataNode_declaration_order :
    (∀ (coin : Bool) (s : CState),
      enrichDataNode coin s
        = { sentiment := some (if coin then "positive" else "neutral"),
            complexity := some (if s.input.length > 20 then "high" else "low"),
            tags := some ["processed", s.category, "v1"] }) ∧
    (∀ (e1 e2 : EObj) (v : String),
      (assignAll [e1, { e2 with sentiment := some v }]).sentiment = some v) := by
  exact ⟨fun _ _ => rfl, fun _ _ _ => rfl⟩

/-- Claim C6: a routing function that always returns the same node
makes invoke fail with StepLimitExceeded instead of running forever,
and with a configured bound of 50 exactly 50 node executions are
observed before the failure. The executor is modelled from the spec,
its implementation being the langgraph library. -/
theorem cyclic_routing_step_limit :
    (∀ {ν σ : Type} (node : ν → σ → σ) (target entry : ν) (s : σ) (bound : ℕ),
      invokeGraph node (fun _ _ => some target) entry s bound
        = .stepLimitExceeded bound) ∧
    invokeGraph (fun (_ : Unit) (n : ℕ) => n + 1) (fun _ _ => some ()) () 0 50
      = .stepLimitExceeded 50 := by
  have key : ∀ {ν σ : Type} (node : ν → σ → σ) (target : ν) (r e : ℕ) (cur : ν) (s : σ),
      execWalk node (fun _ _ => some target) cur s e r = .stepLimitExceeded (e + r) := by
    intro ν σ node target r
    induction r with
    | zero => intro e cur s; simp [execWalk]
    | succ m ih =>
      intro e cur s
      show execWalk node (fun _ _ => some target) target (node cur s) (e + 1) m
        = ExecOutcome.stepLimitExceeded (e + (m + 1))
      rw [ih]
      congr 1
      omega
  constructor
  · intro ν σ node target entry s bound
    have h := key node target bound 0 entry s
    simpa [invokeGraph] using h
  · have h := key (fun (_ : Unit) (n : ℕ) => n + 1) () 50 0 () 0
    simpa [invokeGraph] using h

/-- Claim C7: each routing function is embedded as a pure total
function of the state (the console tracing in the sources emits
observability output only and contributes nothing to the returned
label), and for every state it returns a label present in its declared
candidate mapping; in particular routeByCategory always lands in
{processMath, processText, processData, enrichData}, so the
unmapped-label error branch is unreachable. -/
theorem routing_total_and_mapped :
    (∀ s : AgentState, shouldContinue s ∈ shouldContinueTargets) ∧
    (∀ s : CState, routeByCategory s ∈ routeByCategoryTargets) ∧
    (∀ s : DState, checkError s ∈ checkErrorLabels) ∧
    (∀ s : DState, shouldAnswerQuestion s ∈ shouldAnswerQuestionLabels) := by
  refine ⟨?_, ?_, ?_, ?_⟩
  · intro s
    cases h : shouldContinue s <;> simp [shouldContinueTargets]
  · intro s
    unfold routeByCategory
    split <;> simp [routeByCategoryTargets]
  · intro s
    unfold checkError
    split <;> simp [checkErrorLabels]
  · intro s
    unfold shouldAnswerQuestion
    split
    · simp [shouldAnswerQuestionLabels]
    · split
      · split <;> simp [shouldAnswerQuestionLabels]
      · simp [shouldAnswerQuestionLabels]

/-- Claim C8: the message channel is append-only — for every model
script and every initial transcript, both agent loops produce a
transcript that the initial message list is a prefix of; since every
intermediate transcript is the initial list of the remaining run, the
prefix property holds after each step as well. -/
theorem transcript_append_only (script msgs : List Message) :
    (∃ t, (runAgent script msgs).msgs = msgs ++ t) ∧
    (∃ t, (runFunctional script msgs).msgs = msgs ++ t) :=
  ⟨runAgent_extends script msgs, runFunctional_extends script msgs⟩

/-- Claim C9: on a state whose transcript is empty or ends in a
non-ai-role message, the tool node succeeds with the empty update —
which merges to leave the transcript unchanged — and the router
returns END. -/
theorem toolNode_frame_non_ai (s : AgentState)
    (h : ∀ m, s.messages.getLast? = some m → m.isAI = false) :
    toolNode s = .ok [] ∧ shouldContinue s = .END ∧ s.messages ++ [] = s.messages := by
  refine ⟨?_, ?_, by simp⟩
  · unfold toolNode
    cases hm : s.messages.getLast? with
    | none => rfl
    | some m => simp [h m hm]
  · unfold shouldContinue
    cases hm : s.messages.getLast? with
    | none => rfl
    | some m => simp [h m hm]

/-- Witness for the C9 theorem at the empty transcript. -/
theorem toolNode_frame_non_ai_witness :
    toolNode ⟨[]⟩ = .ok [] ∧ shouldContinue ⟨[]⟩ = .END ∧
      ([] : List Message) ++ [] = [] :=
  toolNode_frame_non_ai ⟨[]⟩ (by intro m hm; cases hm)

/-- Claim C10, counterexample: a pending call naming the registered
tool divide but missing the argument a makes the tool-execution node
fail on schema validation, so registered names alone do not guarantee
the node succeeds. -/
theorem toolNode_registered_invalid_counterexample :
    toolNode ⟨[Message.ai "" [⟨"call_7", "divide", [("b", Jval.num 2)]⟩]]⟩
      = .error (.validation "divide") := by decide

/-- Claim C10 (amended): if every pending tool call of the latest
ai message names a registered tool and carries schema-valid arguments,
the tool-execution node succeeds, appending one tool message per call;
but an ai message carrying a call whose name is not registered makes
the node fail with a lookup error instead of appending an
error-describing tool message. -/
theorem toolNode_registered_valid (pre : List Message) (c : String) (tcs : List ToolCall)
    (h : ∀ tc ∈ tcs, (toolsByName tc.name).isSome ∧ (numArgs tc.args).isSome) :
    (∃ results, toolNode ⟨pre ++ [Message.ai c tcs]⟩ = .ok results
        ∧ results.length = tcs.length) ∧
    toolNode ⟨[Message.ai "" [⟨"call_9", "subtract", [("a", Jval.num 1), ("b", Jval.num 2)]⟩]]⟩
      = .error (.unregistered "subtract") := by
  constructor
  · obtain ⟨rs, hrs, hlen⟩ := runToolCalls_all_valid tcs h
    refine ⟨rs, ?_, hlen⟩
    rw [toolNode_concat]
    show runToolCalls tcs = _
    exact hrs
  · decide

/-- Witness for the amended C10 theorem at a single well-formed
add call. -/
theorem toolNode_registered_valid_witness :
    (∃ results,
      toolNode ⟨[Message.human "go"] ++ [Message.ai "" [⟨"c2", "add", [("a", Jval.num 3), ("b", Jval.num 4)]⟩]]⟩
        = .ok results ∧ results.length = 1) ∧
    toolNode ⟨[Message.ai "" [⟨"call_9", "subtract", [("a", Jval.num 1), ("b", Jval.num 2)]⟩]]⟩
      = .error (.unregistered "subtract") := by
  have h := toolNode_registered_valid [Message.human "go"] ""
    [⟨"c2", "add", [("a", Jval.num 3), ("b", Jval.num 4)]⟩]
    (by intro tc htc; simp at htc; subst htc; exact ⟨by decide, by decide⟩)
  simpa using h

end LangSandbox
